import Mathlib

/-!
# AiPictureBook front end: utilities and API client

A shallow embedding of `src/frontend/src/utils/index.js` and
`src/frontend/src/api/index.js`, followed by the properties proved about them.

JavaScript strings are modelled by `String` / `List Char`, `Date.now()` and the
random source are explicit inputs, timers are an explicit queue, and the HTTP
client is the list of requests issued so far.
-/

namespace AiPictureBook

/-! ## `getImageUrl` -/

/-- The argument of `getImageUrl`: a string, or `null` / `undefined`. -/
inductive PathArg where
  | null
  | undefined
  | str (s : String)
  deriving DecidableEq, Repr

/-- JavaScript `s.startsWith(p)`: `p` is an initial segment of `s`. -/
def startsWith (s p : String) : Bool :=
  p.data.isPrefixOf s.data

/-- ToBoolean on a string: only the empty string is falsy. -/
def strTruthy (s : String) : Bool :=
  !(s.data.isEmpty)

/-- The function `getImageUrl(path)` of `utils/index.js`.  For `null` and
`undefined` both `path && ...` guards short-circuit and `path` is returned. -/
def getImageUrl : PathArg → PathArg
  | .str path =>
    if strTruthy path && (startsWith path "http://" || startsWith path "https://") then
      .str path
    else if strTruthy path && startsWith path "/static/" then
      .str ("/api" ++ path)
    else
      .str path
  | .null => .null
  | .undefined => .undefined

/-! ## JavaScript values seen by the API client -/

/-- The JavaScript values the API client inspects.  Numbers are exact rationals
(`1.0` is `1`, `0.5` is `1/2`), with `NaN` apart. -/
inductive JsValue where
  | undefined
  | null
  | bool (b : Bool)
  | num (q : ℚ)
  | nan
  | str (s : String)
  | arr (xs : List JsValue)
  | obj (props : List (String × JsValue))

/-- ToBoolean: `undefined`, `null`, `false`, `0`, `NaN` and `''` are falsy. -/
def JsValue.truthy : JsValue → Bool
  | .undefined => false
  | .null => false
  | .bool b => b
  | .num q => decide (q ≠ 0)
  | .nan => false
  | .str s => strTruthy s
  | .arr _ => true
  | .obj _ => true

/-- The operator `a || b`. -/
def JsValue.or (a b : JsValue) : JsValue :=
  if a.truthy then a else b

/-- The property list of an object literal, in insertion order. -/
abbrev Props := List (String × JsValue)

/-- Member access `data.name` on an object: `undefined` when the property is absent. -/
def getProp (data : Props) (name : String) : JsValue :=
  match data.lookup name with
  | some v => v
  | none => .undefined

/-! ## The HTTP client -/

/-- The request methods the client uses. -/
inductive Method where
  | GET
  | POST
  deriving DecidableEq, Repr

/-- One request handed to the axios instance; `url` is relative to `baseURL`. -/
structure Request where
  method : Method
  url : String
  body : Option JsValue

/-- The requests issued so far, oldest first. -/
abbrev Http := List Request

/-- `baseURL` of the axios instance. -/
def api.baseURL : String := "/api"

/-- `timeout` of the axios instance, in milliseconds. -/
def api.timeout : Nat := 600000

/-- `api.post(url, data)`: one POST request carrying `data`. -/
def api.post (url : String) (data : JsValue) (sent : Http) : Http :=
  sent ++ [⟨.POST, url, some data⟩]

/-- `api.get(url)`: one GET request without a body. -/
def api.get (url : String) (sent : Http) : Http :=
  sent ++ [⟨.GET, url, none⟩]

/-! ### `storyApi` -/

def storyApi.generateStory (data : JsValue) : Http → Http :=
  api.post "/story/generate-story" data

def storyApi.generateImageDescriptions (data : JsValue) : Http → Http :=
  api.post "/story/generate-image-descriptions" data

def storyApi.getArtStyles : Http → Http :=
  api.get "/story/art-styles"

def storyApi.getAgeRanges : Http → Http :=
  api.get "/story/age-ranges"

def storyApi.createStoryInDB (data : JsValue) : Http → Http :=
  api.post "/stories" data

/-- The parameter `toStr` is the string conversion a template literal applies to
an interpolated value. -/
def storyApi.addParagraphsToDB (toStr : JsValue → String) (storyId paragraphs : JsValue) :
    Http → Http :=
  api.post ("/stories/" ++ toStr storyId ++ "/paragraphs") paragraphs

def storyApi.addCharactersToDB (toStr : JsValue → String) (storyId characters : JsValue) :
    Http → Http :=
  api.post ("/stories/" ++ toStr storyId ++ "/characters") characters

def storyApi.getStories : Http → Http :=
  api.get "/stories"

def storyApi.getStory (toStr : JsValue → String) (storyId : JsValue) : Http → Http :=
  api.get ("/stories/" ++ toStr storyId)

/-! ### `imageApi` -/

def imageApi.generateImages (data : JsValue) : Http → Http :=
  api.post "/image/generate-images-from-prompts" data

def imageApi.getAspectRatios : Http → Http :=
  api.get "/image/aspect-ratios"

def imageApi.getImageModels : Http → Http :=
  api.get "/image/image-models"

/-! ### `speechApi` -/

/-- The object `requestData` built by `generateParagraphAudio`; `now` is the
value of `Date.now()`. -/
def speechApi.audioRequestData (toStr : JsValue → String) (now : Nat) (data : Props) : JsValue :=
  .obj [
    ("title", (getProp data "title").or (.str ("故事_" ++ toStr (.num now)))),
    ("paragraphs", (getProp data "paragraphs").or (.arr [])),
    ("emotion", (getProp data "emotion").or (.str "happy"))]

def speechApi.generateParagraphAudio (toStr : JsValue → String) (now : Nat) (data : Props) :
    Http → Http :=
  api.post "/speech/generate_paragraph_audio" (speechApi.audioRequestData toStr now data)

/-- The object `requestData` built by `generateParagraphVideo`. -/
def speechApi.videoRequestData (toStr : JsValue → String) (now : Nat) (data : Props) : JsValue :=
  .obj [
    ("image_paths", (getProp data "image_paths").or (.arr [])),
    ("audio_paths", (getProp data "audio_paths").or (.arr [])),
    ("subtitle_paths", (getProp data "subtitle_paths").or (.arr [])),
    ("output_filename", (getProp data "output_filename").or (.str ("video_" ++ toStr (.num now)))),
    ("transition_duration", (getProp data "transition_duration").or (.num 1.0)),
    ("fade_duration", (getProp data "fade_duration").or (.num 0.5))]

def speechApi.generateParagraphVideo (toStr : JsValue → String) (now : Nat) (data : Props) :
    Http → Http :=
  api.post "/speech/generate_paragraph_video" (speechApi.videoRequestData toStr now data)

/-- The property list of a request body (empty for a value that is no object). -/
def bodyProps : JsValue → Props
  | .obj props => props
  | _ => []


/-! ## `throttle` -/

/-- One call of the function returned by `throttle(fn, delay)` at clock time
`nowTime` (the value of `Date.now()`), the closure variable being `lastTime`:
whether `fn` is invoked, and the new value of `lastTime`. -/
def throttle.call (delay lastTime nowTime : Int) : Bool × Int :=
  if nowTime - lastTime > delay then (true, nowTime) else (false, lastTime)

/-- Successive calls at the given clock times, starting from `lastTime`: for each
call, whether it invoked `fn`. -/
def throttle.run (delay : Int) : Int → List Int → List Bool
  | _, [] => []
  | lastTime, nowTime :: rest =>
    (throttle.call delay lastTime nowTime).1 ::
      throttle.run delay (throttle.call delay lastTime nowTime).2 rest

/-- The function returned by `throttle(fn, delay)`, whose closure starts with
`lastTime = 0`, called at the given clock times. -/
def throttle (delay : Int) (times : List Int) : List Bool :=
  throttle.run delay 0 times

/-! ## `debounce` -/

/-- A timer armed by `setTimeout`: its id, the time it is due, and the arguments
its callback passes to `fn`. -/
structure Timer (α : Type) where
  id : Nat
  due : Nat
  args : α
  deriving DecidableEq, Repr

/-- The timers of the event loop together with the closure of one debounced
function. -/
structure DebounceState (α : Type) where
  /-- the id the next `setTimeout` returns -/
  nextId : Nat
  /-- timers armed and neither fired nor cleared, oldest first -/
  pending : List (Timer α)
  /-- the closure variable `timer`: `null`, or the id of the last timer armed -/
  timer : Option Nat
  /-- the timers whose callback ran, that is, the invocations of `fn`, oldest first -/
  fired : List (Timer α)
  /-- the ids of the pending timers removed by `clearTimeout` -/
  cleared : List Nat
  deriving DecidableEq, Repr

/-- The state when `debounce(fn, delay)` returns: `timer = null`, nothing armed. -/
def DebounceState.init {α : Type} : DebounceState α :=
  ⟨0, [], none, [], []⟩

/-- `clearTimeout(id)`: a pending timer with that id is removed; nothing happens
for `null` or for a timer that has already fired. -/
def clearTimeout {α : Type} (id : Option Nat) (s : DebounceState α) : DebounceState α :=
  match id with
  | none => s
  | some i =>
    { s with
      pending := s.pending.filter (fun t => t.id != i)
      cleared := s.cleared ++ (s.pending.filter (fun t => t.id == i)).map Timer.id }

/-- `setTimeout(callback, delay)` at time `now`: arms a timer due at `now + delay`
and returns its id. -/
def setTimeout {α : Type} (now delay : Nat) (args : α) (s : DebounceState α) :
    Nat × DebounceState α :=
  (s.nextId,
    { s with nextId := s.nextId + 1, pending := s.pending ++ [⟨s.nextId, now + delay, args⟩] })

/-- The clock reaches `now`: every pending timer due by then runs its callback,
which invokes `fn` with the timer's arguments. -/
def runDue {α : Type} (now : Nat) (s : DebounceState α) : DebounceState α :=
  { s with
    pending := s.pending.filter (fun t => !(decide (t.due ≤ now)))
    fired := s.fired ++ s.pending.filter (fun t => decide (t.due ≤ now)) }

/-- Time passes without further calls: every pending timer fires when due. -/
def runAll {α : Type} (s : DebounceState α) : DebounceState α :=
  { s with pending := [], fired := s.fired ++ s.pending }

/-- One call, at time `now` with arguments `args`, of the function returned by
`debounce(fn, delay)`: `clearTimeout(timer)`, then `timer = setTimeout(..., delay)`. -/
def debounce.call {α : Type} (delay now : Nat) (args : α) (s : DebounceState α) :
    DebounceState α :=
  let armed := setTimeout now delay args (clearTimeout s.timer s)
  { armed.2 with timer := some armed.1 }

/-- Successive calls `(time, args)`; before each call the timers due by then fire. -/
def debounce.run {α : Type} (delay : Nat) : DebounceState α → List (Nat × α) → DebounceState α
  | s, [] => s
  | s, (now, args) :: rest => debounce.run delay (debounce.call delay now args (runDue now s)) rest

/-- The function returned by `debounce(fn, delay)` called at the given times with
the given arguments, and then left alone until every timer has fired. -/
def debounce {α : Type} (delay : Nat) (calls : List (Nat × α)) : DebounceState α :=
  runAll (debounce.run delay DebounceState.init calls)

/-! ## `generateUUID` -/

/-- The expression `Math.random() * 16 | 0` for a value `u` of `Math.random()`:
the integer part of `16 * u` (the operand is never negative). -/
def randomNibble (u : ℚ) : Nat :=
  ⌊u * 16⌋.toNat

/-- The callback handed to `replace`: the text that replaces the matched
character `c`, given the value `u` that `Math.random()` returns in this call. -/
def uuidReplacer (c : Char) (u : ℚ) : List Char :=
  let r := randomNibble u
  let v := if c = 'x' then r else (r &&& 0x3 ||| 0x8)
  Nat.toDigits 16 v

/-- The call `template.replace(/[xy]/g, callback)`: every `x` and `y`, from left to
right, is replaced by what the callback returns; the `k`-th call of `Math.random()`
returns `rand k`. -/
def replaceXY (callback : Char → ℚ → List Char) (rand : Nat → ℚ) : List Char → Nat → List Char
  | [], _ => []
  | c :: cs, k =>
    if c = 'x' ∨ c = 'y' then callback c (rand k) ++ replaceXY callback rand cs (k + 1)
    else c :: replaceXY callback rand cs k

/-- The function `generateUUID()`, the random source being the stream `rand`. -/
def generateUUID (rand : Nat → ℚ) : List Char :=
  replaceXY uuidReplacer rand "xxxxxxxx-xxxx-4xxx-yxxx-xxxxxxxxxxxx".data 0

/-- A lowercase hexadecimal digit. -/
def isLowerHex (c : Char) : Bool :=
  "0123456789abcdef".data.contains c

/-! ## `formatDate` -/

/-- What a `Date` object reports through its getters (local time): `getFullYear()`,
`getMonth()` (0 to 11), `getDate()`, `getHours()`, `getMinutes()`, `getSeconds()`
and `getMilliseconds()`. -/
structure JsDate where
  fullYear : Int
  month : Nat
  date : Nat
  hours : Nat
  minutes : Nat
  seconds : Nat
  milliseconds : Nat
  deriving DecidableEq, Repr

/-- The first argument of `formatDate`. -/
inductive DateArg where
  | null
  | undefined
  | str (s : List Char)
  | num (n : Int)
  | date (d : JsDate)

/-- The test `!date`: `null`, `undefined`, `''` and `0` are falsy. -/
def DateArg.falsy : DateArg → Bool
  | .null => true
  | .undefined => true
  | .str s => s.isEmpty
  | .num n => decide (n = 0)
  | .date _ => false

/-- The string of a non-negative integer, as `'' + n` gives it. -/
def natToString (n : Nat) : List Char :=
  Nat.toDigits 10 n

/-- The string of an integer, as `'' + n` gives it. -/
def intToString : Int → List Char
  | .ofNat n => natToString n
  | .negSucc n => '-' :: natToString (n + 1)

/-- The call `s.substr(start)` with one argument: from `start` to the end, a negative
`start` counting from the end. -/
def substr (s : List Char) (start : Int) : List Char :=
  if start < 0 then s.drop (s.length - start.natAbs) else s.drop start.toNat

/-- The call `s.replace(pat, repl)` with a string pattern: the first occurrence of
`pat` is replaced (`repl` holds no `$`). -/
def replaceFirst (pat repl : List Char) : List Char → List Char
  | [] => if pat.isEmpty then repl else []
  | c :: cs =>
    if pat.isPrefixOf (c :: cs) then repl ++ (c :: cs).drop pat.length
    else c :: replaceFirst pat repl cs

/-- The group `$1` after a successful `/(c+)/.test(s)`: the leftmost run of `c`, taken
as long as it goes; `none` when the test fails. -/
def matchRun (c : Char) : List Char → Option (List Char)
  | [] => none
  | x :: xs => if x = c then some (x :: xs.takeWhile (fun y => y = c)) else matchRun c xs

/-- The group `$1` after a successful `/(c)/.test(s)`; `none` when the test fails. -/
def matchChar (c : Char) (s : List Char) : Option (List Char) :=
  if s.contains c then some [c] else none

/-- The keys of the table `o`: `c+` for a character `c`, or the single character `S`. -/
inductive DateKey where
  | run (c : Char)
  | one (c : Char)

/-- The test `new RegExp('(' + k + ')').test(fmt)` with its group `$1`. -/
def DateKey.exec : DateKey → List Char → Option (List Char)
  | .run c, fmt => matchRun c fmt
  | .one c, fmt => matchChar c fmt

/-- The table `o` of `formatDate`, in the order `for (const k in o)` visits it. -/
def dateTable (d : JsDate) : List (DateKey × Nat) :=
  [(.run 'M', d.month + 1),
   (.run 'D', d.date),
   (.run 'H', d.hours),
   (.run 'm', d.minutes),
   (.run 's', d.seconds),
   (.run 'q', (d.month + 3) / 3),
   (.one 'S', d.milliseconds)]

/-- The body of the loop `for (const k in o)` for one key `k` with value `v`. -/
def applyDateKey (fmt : List Char) (kv : DateKey × Nat) : List Char :=
  match kv.1.exec fmt with
  | some m =>
    replaceFirst m
      (if m.length = 1 then natToString kv.2
        else substr ("00".data ++ natToString kv.2) (natToString kv.2).length)
      fmt
  | none => fmt

/-- The statement `if (/(Y+)/.test(fmt)) fmt = fmt.replace(...)`. -/
def applyYear (d : JsDate) (fmt : List Char) : List Char :=
  match matchRun 'Y' fmt with
  | some m => replaceFirst m (substr (intToString d.fullYear) (4 - (m.length : Int))) fmt
  | none => fmt

/-- The default value of the parameter `fmt`. -/
def defaultDateFormat : List Char :=
  "YYYY-MM-DD HH:mm:ss".data

/-- The function `formatDate(date, fmt)`.  The `Date` constructor is a parameter:
`parseDate` is `new Date(string)`, `ofEpoch` is `new Date(number)`. -/
def formatDate (parseDate : List Char → JsDate) (ofEpoch : Int → JsDate) (date : DateArg)
    (fmt : List Char) : List Char :=
  if date.falsy then []
  else
    let d : JsDate :=
      match date with
      | .str s => parseDate (s.map (fun c => if c = '-' then '/' else c))
      | .num n => ofEpoch n
      | .date d => d
      | .null => ofEpoch 0
      | .undefined => ofEpoch 0
    (dateTable d).foldl applyDateKey (applyYear d fmt)

/-- The decimal digits of `n`, zero-padded on the left to `width` characters. -/
def zeroPad : Nat → Nat → List Char
  | 0, _ => []
  | width + 1, n => zeroPad width (n / 10) ++ [Nat.digitChar (n % 10)]

/-- What the spec says the default format gives: year, month (1 to 12), day, hours,
minutes and seconds, zero-padded and separated as in `YYYY-MM-DD HH:mm:ss`. -/
def expectedDefaultDate (d : JsDate) : List Char :=
  zeroPad 4 d.fullYear.toNat ++ '-' :: zeroPad 2 (d.month + 1) ++ '-' :: zeroPad 2 d.date ++
    ' ' :: zeroPad 2 d.hours ++ ':' :: zeroPad 2 d.minutes ++ ':' :: zeroPad 2 d.seconds

/-! ## `storage` and JSON -/

/-- The values JSON text denotes.  Numbers are integers, strings are sequences of
Unicode characters, and the properties of an object are listed in order. -/
inductive Json where
  | null
  | bool (b : Bool)
  | num (n : Int)
  | str (s : List Char)
  | arr (elems : List Json)
  | obj (props : List (List Char × Json))

/-- The test `typeof value === 'object'`, true of `null`, arrays and objects. -/
def Json.typeofObject : Json → Bool
  | .null => true
  | .arr _ => true
  | .obj _ => true
  | _ => false

/-- The test `Number.isSafeInteger(n)`: an integer that a JavaScript number holds
exactly and prints in plain decimal. -/
def isSafeInteger (n : Int) : Bool :=
  decide (n.natAbs < 2 ^ 53)

/-- The property names of an object. -/
def propNames (props : List (List Char × Json)) : List (List Char) :=
  props.map Prod.fst

mutual
/-- A value a JavaScript program can hold: every number is a safe integer and no
object has two properties of the same name. -/
def Json.Representable : Json → Prop
  | .null => True
  | .bool _ => True
  | .num n => isSafeInteger n = true
  | .str _ => True
  | .arr elems => Json.RepresentableList elems
  | .obj props => (propNames props).Nodup ∧ Json.RepresentableProps props
/-- Every element is representable. -/
def Json.RepresentableList : List Json → Prop
  | [] => True
  | x :: xs => Json.Representable x ∧ Json.RepresentableList xs
/-- Every property value is representable. -/
def Json.RepresentableProps : List (List Char × Json) → Prop
  | [] => True
  | (_, v) :: rest => Json.Representable v ∧ Json.RepresentableProps rest
end

/-! ### `JSON.stringify` -/

/-- The two lowercase hexadecimal digits of a code below 256. -/
def hex2 (n : Nat) : List Char :=
  [Nat.digitChar (n / 16), Nat.digitChar (n % 16)]

/-- How `JSON.stringify` writes one character inside a string. -/
def escapeChar (c : Char) : List Char :=
  if c = '"' then ['\\', '"']
  else if c = '\\' then ['\\', '\\']
  else if c = Char.ofNat 8 then ['\\', 'b']
  else if c = Char.ofNat 12 then ['\\', 'f']
  else if c = '\n' then ['\\', 'n']
  else if c = '\r' then ['\\', 'r']
  else if c = '\t' then ['\\', 't']
  else if c.toNat < 32 then '\\' :: 'u' :: '0' :: '0' :: hex2 c.toNat
  else [c]

/-- The characters of a string, escaped, up to and with the closing quote. -/
def quoteTail : List Char → List Char
  | [] => ['"']
  | c :: cs => escapeChar c ++ quoteTail cs

/-- A string as `JSON.stringify` writes it. -/
def quoteString (s : List Char) : List Char :=
  '"' :: quoteTail s

mutual
/-- The text `JSON.stringify(value)`. -/
def JSON.stringify : Json → List Char
  | .null => ['n', 'u', 'l', 'l']
  | .bool true => ['t', 'r', 'u', 'e']
  | .bool false => ['f', 'a', 'l', 's', 'e']
  | .num n => intToString n
  | .str s => quoteString s
  | .arr [] => ['[', ']']
  | .arr (x :: xs) => '[' :: (JSON.stringify x ++ JSON.stringifyElems xs)
  | .obj [] => ['{', '}']
  | .obj ((k, v) :: rest) =>
    '{' :: (quoteString k ++ ':' :: (JSON.stringify v ++ JSON.stringifyProps rest))
/-- The elements after the first, each behind a comma, and the closing bracket. -/
def JSON.stringifyElems : List Json → List Char
  | [] => [']']
  | x :: xs => ',' :: (JSON.stringify x ++ JSON.stringifyElems xs)
/-- The properties after the first, each behind a comma, and the closing brace. -/
def JSON.stringifyProps : List (List Char × Json) → List Char
  | [] => ['}']
  | (k, v) :: rest =>
    ',' :: (quoteString k ++ ':' :: (JSON.stringify v ++ JSON.stringifyProps rest))
end

/-! ### `JSON.parse` -/

/-- JSON white space: space, tab, line feed, carriage return. -/
def isWs (c : Char) : Bool :=
  c = ' ' || c = '\t' || c = '\n' || c = '\r'

/-- Drops leading white space. -/
def skipWs (cs : List Char) : List Char :=
  cs.dropWhile isWs

/-- A decimal digit. -/
def isDigit (c : Char) : Bool :=
  decide (48 ≤ c.toNat ∧ c.toNat ≤ 57)

/-- The value of a hexadecimal digit, either case. -/
def hexValue (c : Char) : Option Nat :=
  if 48 ≤ c.toNat ∧ c.toNat ≤ 57 then some (c.toNat - 48)
  else if 97 ≤ c.toNat ∧ c.toNat ≤ 102 then some (c.toNat - 87)
  else if 65 ≤ c.toNat ∧ c.toNat ≤ 70 then some (c.toNat - 55)
  else none

/-- The code written by the four hexadecimal digits of a `\u` escape. -/
def hex4Value (a b c d : Char) : Option Nat :=
  match hexValue a, hexValue b, hexValue c, hexValue d with
  | some x, some y, some z, some w => some (((x * 16 + y) * 16 + z) * 16 + w)
  | _, _, _, _ => none

/-- The character a one-letter escape stands for. -/
def unescape (e : Char) : Option Char :=
  if e = '"' then some '"'
  else if e = '\\' then some '\\'
  else if e = '/' then some '/'
  else if e = 'b' then some (Char.ofNat 8)
  else if e = 'f' then some (Char.ofNat 12)
  else if e = 'n' then some '\n'
  else if e = 'r' then some '\r'
  else if e = 't' then some '\t'
  else none

/-- Puts a character in front of the string a parser returned. -/
def consChar (c : Char) : Option (List Char × List Char) → Option (List Char × List Char)
  | some (s, rest) => some (c :: s, rest)
  | none => none

/-- Reads the characters of a string up to the closing quote; gives the string and
the text after the quote.  A `\u` escape of a surrogate is accepted as one half of
a pair that writes a character beyond the basic plane; a surrogate alone writes no
Unicode character and is not accepted. -/
def parseChars : List Char → Option (List Char × List Char)
  | [] => none
  | c :: rest =>
    if c = '"' then some ([], rest)
    else if c = '\\' then
      match rest with
      | [] => none
      | e :: rest1 =>
        if e = 'u' then
          match rest1 with
          | h1 :: h2 :: h3 :: h4 :: rest2 =>
            match hex4Value h1 h2 h3 h4 with
            | none => none
            | some n =>
              if 0xD800 ≤ n ∧ n < 0xDC00 then
                match rest2 with
                | b2 :: u2 :: l1 :: l2 :: l3 :: l4 :: rest3 =>
                  if b2 = '\\' ∧ u2 = 'u' then
                    match hex4Value l1 l2 l3 l4 with
                    | none => none
                    | some m =>
                      if 0xDC00 ≤ m ∧ m < 0xE000 then
                        consChar (Char.ofNat (0x10000 + (n - 0xD800) * 0x400 + (m - 0xDC00)))
                          (parseChars rest3)
                      else none
                  else none
                | _ => none
              else if 0xDC00 ≤ n ∧ n < 0xE000 then none
              else consChar (Char.ofNat n) (parseChars rest2)
          | _ => none
        else
          match unescape e with
          | some x => consChar x (parseChars rest1)
          | none => none
    else if c.toNat < 32 then none
    else consChar c (parseChars rest)

/-- The number a sequence of decimal digits writes. -/
def digitsValue (ds : List Char) : Nat :=
  ds.foldl (fun acc d => 10 * acc + (d.toNat - 48)) 0

/-- Reads an integer without sign: `0`, or a digit from 1 to 9 and the digits after
it. -/
def parseNat : List Char → Option (Nat × List Char)
  | [] => none
  | c :: rest =>
    if c = '0' then some (0, rest)
    else if isDigit c then
      some (digitsValue (c :: rest.takeWhile isDigit), rest.dropWhile isDigit)
    else none

/-- Reads an integer.  A fraction or an exponent after it is left in the text, where
no caller accepts it: numbers that are not written as integers are outside this
model. -/
def parseNumber : List Char → Option (Json × List Char)
  | [] => none
  | c :: rest =>
    if c = '-' then
      match parseNat rest with
      | some (n, rest1) => some (.num (-(n : Int)), rest1)
      | none => none
    else
      match parseNat (c :: rest) with
      | some (n, rest1) => some (.num (n : Int), rest1)
      | none => none

/-- Reads the given word. -/
def parseWord (word : List Char) (v : Json) (cs : List Char) : Option (Json × List Char) :=
  if word.isPrefixOf cs then some (v, cs.drop word.length) else none

/-- The step `CreateDataProperty(object, key, value)`: the value of a property
already there is replaced, a new property is put last. -/
def setProp (props : List (List Char × Json)) (key : List Char) (value : Json) :
    List (List Char × Json) :=
  match props with
  | [] => [(key, value)]
  | (k, v) :: rest => if k = key then (k, value) :: rest else (k, v) :: setProp rest key value

/-- The object built from the members read from the text, in order. -/
def buildObject (members : List (List Char × Json)) : Json :=
  .obj (members.foldl (fun props kv => setProp props kv.1 kv.2) [])

mutual
/-- Reads one JSON value, after white space; `fuel` bounds the depth of the calls. -/
def parseValue : Nat → List Char → Option (Json × List Char)
  | 0, _ => none
  | fuel + 1, cs =>
    match skipWs cs with
    | [] => none
    | c :: rest =>
      if c = '{' then
        match skipWs rest with
        | [] => none
        | c1 :: rest1 =>
          if c1 = '}' then some (.obj [], rest1)
          else
            match parseMembers fuel (c1 :: rest1) with
            | some (members, rest2) => some (buildObject members, rest2)
            | none => none
      else if c = '[' then
        match skipWs rest with
        | [] => none
        | c1 :: rest1 =>
          if c1 = ']' then some (.arr [], rest1)
          else
            match parseElems fuel (c1 :: rest1) with
            | some (elems, rest2) => some (.arr elems, rest2)
            | none => none
      else if c = '"' then
        match parseChars rest with
        | some (s, rest1) => some (.str s, rest1)
        | none => none
      else if c = 'n' then parseWord ['n', 'u', 'l', 'l'] .null (c :: rest)
      else if c = 't' then parseWord ['t', 'r', 'u', 'e'] (.bool true) (c :: rest)
      else if c = 'f' then parseWord ['f', 'a', 'l', 's', 'e'] (.bool false) (c :: rest)
      else parseNumber (c :: rest)
/-- Reads the elements of an array, the first one at hand, up to the closing bracket. -/
def parseElems : Nat → List Char → Option (List Json × List Char)
  | 0, _ => none
  | fuel + 1, cs =>
    match parseValue fuel cs with
    | none => none
    | some (v, rest) =>
      match skipWs rest with
      | [] => none
      | c :: rest1 =>
        if c = ',' then
          match parseElems fuel rest1 with
          | some (vs, rest2) => some (v :: vs, rest2)
          | none => none
        else if c = ']' then some ([v], rest1)
        else none
/-- Reads the members of an object, the first one at hand, up to the closing brace. -/
def parseMembers : Nat → List Char → Option (List (List Char × Json) × List Char)
  | 0, _ => none
  | fuel + 1, cs =>
    match skipWs cs with
    | [] => none
    | q :: rest =>
      if q = '"' then
        match parseChars rest with
        | none => none
        | some (key, rest1) =>
          match skipWs rest1 with
          | [] => none
          | colon :: rest2 =>
            if colon = ':' then
              match parseValue fuel rest2 with
              | none => none
              | some (v, rest3) =>
                match skipWs rest3 with
                | [] => none
                | c :: rest4 =>
                  if c = ',' then
                    match parseMembers fuel rest4 with
                    | some (ms, rest5) => some ((key, v) :: ms, rest5)
                    | none => none
                  else if c = '}' then some ([(key, v)], rest4)
                  else none
            else none
      else none
end

/-- What `JSON.parse` throws. -/
inductive JsError where
  | syntaxError
  deriving DecidableEq, Repr

/-- The call `JSON.parse(text)`: the value the whole text denotes, white space
around it allowed, or a `SyntaxError`. -/
def JSON.parse (text : List Char) : Except JsError Json :=
  match parseValue (text.length + 1) text with
  | some (v, rest) => if (skipWs rest).isEmpty then .ok v else .error .syntaxError
  | none => .error .syntaxError

/-! ### `storage` -/

/-- The content of `localStorage`: the string stored under each key, if any. -/
abbrev LocalStorage := List Char → Option (List Char)

/-- The call `localStorage.setItem(key, value)`. -/
def LocalStorage.setItem (store : LocalStorage) (key value : List Char) : LocalStorage :=
  fun k => if k = key then some value else store k

/-- The call `localStorage.getItem(key)`: `none` stands for `null`. -/
def LocalStorage.getItem (store : LocalStorage) (key : List Char) : Option (List Char) :=
  store key

/-- The method `storage.set(key, value)`; `stringify` is `JSON.stringify`.  A value
that is no object is turned into a string by `setItem` itself. -/
def storage.set (stringify : Json → List Char) (store : LocalStorage) (key : List Char)
    (value : Json) : LocalStorage :=
  let value : Json := if value.typeofObject then .str (stringify value) else value
  store.setItem key
    (match value with
      | .str s => s
      | .num n => intToString n
      | .bool true => ['t', 'r', 'u', 'e']
      | .bool false => ['f', 'a', 'l', 's', 'e']
      | .null => ['n', 'u', 'l', 'l']
      | .arr _ => []
      | .obj _ => [])

/-- The method `storage.get(key)`; `parse` is `JSON.parse`, which is handed the
string form of `value` (`'null'` for `null`).  The `try`/`catch` returns `value`
itself when `parse` throws. -/
def storage.get (parse : List Char → Except JsError Json) (store : LocalStorage)
    (key : List Char) : Except JsError Json :=
  match store.getItem key with
  | some value => tryCatch (parse value) (fun _ => pure (.str value))
  | none => tryCatch (parse ['n', 'u', 'l', 'l']) (fun _ => pure .null)

/-! # Properties -/

/-! ## `getImageUrl` -/

theorem startsWith_iff (s p : String) : startsWith s p = true ↔ ∃ r : String, s = p ++ r := by
  unfold startsWith
  rw [List.isPrefixOf_iff_prefix]
  constructor
  · rintro ⟨t, ht⟩
    exact ⟨⟨t⟩, by apply String.ext; simpa using ht.symm⟩
  · rintro ⟨r, rfl⟩
    exact ⟨r.data, by simp⟩

theorem strTruthy_of_append (p r : String) (hp : p ≠ "") : strTruthy (p ++ r) = true := by
  have : p.data ≠ [] := fun h => hp (String.ext h)
  cases hd : p.data with
  | nil => exact absurd hd this
  | cons c cs => simp [strTruthy, hd]

/-- C1: `getImageUrl` returns an absolute `http://` or `https://` URL unchanged,
puts `/api` in front of a path starting with `/static/`, and returns every other
path unchanged, the empty string, `null` and `undefined` included. -/
theorem getImageUrl_spec (path : String) :
    (((∃ r : String, path = "http://" ++ r) ∨ (∃ r : String, path = "https://" ++ r)) →
        getImageUrl (.str path) = .str path) ∧
    ((∃ r : String, path = "/static/" ++ r) →
        getImageUrl (.str path) = .str ("/api" ++ path)) ∧
    ((¬ ∃ r : String, path = "http://" ++ r) → (¬ ∃ r : String, path = "https://" ++ r) →
      (¬ ∃ r : String, path = "/static/" ++ r) → getImageUrl (.str path) = .str path) ∧
    getImageUrl (.str "") = .str "" ∧
    getImageUrl .null = .null ∧
    getImageUrl .undefined = .undefined := by
  refine ⟨?_, ?_, ?_, by decide, rfl, rfl⟩
  · intro h
    have hc : (strTruthy path && (startsWith path "http://" || startsWith path "https://"))
        = true := by
      rcases h with ⟨r, rfl⟩ | ⟨r, rfl⟩
      · rw [strTruthy_of_append _ _ (by decide), (startsWith_iff _ "http://").2 ⟨r, rfl⟩]; rfl
      · rw [strTruthy_of_append _ _ (by decide), (startsWith_iff _ "https://").2 ⟨r, rfl⟩]
        simp
    simp only [getImageUrl, hc, if_true]
  · rintro ⟨r, rfl⟩
    have h1 : startsWith ("/static/" ++ r) "http://" = false := by
      simp [startsWith, List.isPrefixOf]
    have h2 : startsWith ("/static/" ++ r) "https://" = false := by
      simp [startsWith, List.isPrefixOf]
    have h3 : startsWith ("/static/" ++ r) "/static/" = true :=
      (startsWith_iff _ _).2 ⟨r, rfl⟩
    have h4 : strTruthy ("/static/" ++ r) = true := strTruthy_of_append _ _ (by decide)
    simp [getImageUrl, h1, h2, h3, h4]
  · intro _ _ h3
    have h3f : startsWith path "/static/" = false := by
      rw [Bool.eq_false_iff]
      exact fun h => h3 ((startsWith_iff _ _).1 h)
    simp only [getImageUrl, h3f]
    split_ifs <;> first | rfl | simp_all

theorem getImageUrl_spec_witness :
    getImageUrl (.str "/static/images/a.png") = .str "/api/static/images/a.png" ∧
    getImageUrl (.str "https://cdn.example.com/a.png") = .str "https://cdn.example.com/a.png" ∧
    getImageUrl (.str "images/a.png") = .str "images/a.png" :=
  ⟨(getImageUrl_spec "/static/images/a.png").2.1 ⟨"images/a.png", by decide⟩,
   (getImageUrl_spec "https://cdn.example.com/a.png").1 (Or.inr ⟨"cdn.example.com/a.png", by decide⟩),
   (getImageUrl_spec "images/a.png").2.2.1
     (by rw [← startsWith_iff]; decide) (by rw [← startsWith_iff]; decide)
     (by rw [← startsWith_iff]; decide)⟩

/-! ## The API client -/

theorem or_of_truthy {a : JsValue} (b : JsValue) (h : a.truthy = true) : a.or b = a := by
  simp [JsValue.or, h]

theorem or_of_falsy {a : JsValue} (b : JsValue) (h : a.truthy = false) : a.or b = b := by
  simp [JsValue.or, h]

theorem getProp_of_absent {data : Props} {name : String} (h : data.lookup name = none) :
    getProp data name = .undefined := by
  simp [getProp, h]

theorem or_of_absent {data : Props} {name : String} (b : JsValue)
    (h : data.lookup name = none) : (getProp data name).or b = b := by
  rw [getProp_of_absent h]; rfl

/-- C6: when `title`, `paragraphs` or `emotion` is absent from the input of
`generateParagraphAudio`, the body of the request sent carries the default of that
field (`故事_<timestamp>`, `[]`, `happy`); likewise `generateParagraphVideo` sends
`[]` for an absent `image_paths`, `audio_paths` or `subtitle_paths`,
`video_<timestamp>` for an absent `output_filename`, `1.0` for an absent
`transition_duration` and `0.5` for an absent `fade_duration`. -/
theorem speechApi_fills_absent_fields (toStr : JsValue → String) (now : Nat) (data : Props)
    (sent : Http) :
    (∃ body : Props,
      speechApi.generateParagraphAudio toStr now data sent
        = sent ++ [⟨.POST, "/speech/generate_paragraph_audio", some (.obj body)⟩] ∧
      (data.lookup "title" = none →
        body.lookup "title" = some (.str ("故事_" ++ toStr (.num now)))) ∧
      (data.lookup "paragraphs" = none → body.lookup "paragraphs" = some (.arr [])) ∧
      (data.lookup "emotion" = none → body.lookup "emotion" = some (.str "happy"))) ∧
    (∃ body : Props,
      speechApi.generateParagraphVideo toStr now data sent
        = sent ++ [⟨.POST, "/speech/generate_paragraph_video", some (.obj body)⟩] ∧
      (data.lookup "image_paths" = none → body.lookup "image_paths" = some (.arr [])) ∧
      (data.lookup "audio_paths" = none → body.lookup "audio_paths" = some (.arr [])) ∧
      (data.lookup "subtitle_paths" = none → body.lookup "subtitle_paths" = some (.arr [])) ∧
      (data.lookup "output_filename" = none →
        body.lookup "output_filename" = some (.str ("video_" ++ toStr (.num now)))) ∧
      (data.lookup "transition_duration" = none →
        body.lookup "transition_duration" = some (.num 1)) ∧
      (data.lookup "fade_duration" = none →
        body.lookup "fade_duration" = some (.num (1 / 2)))) := by
  refine ⟨⟨_, rfl, ?_, ?_, ?_⟩, ⟨_, rfl, ?_, ?_, ?_, ?_, ?_, ?_⟩⟩
  all_goals intro h
  all_goals simp [List.lookup, or_of_absent _ h]
  all_goals norm_num

theorem speechApi_fills_absent_fields_witness :
    ∃ body : Props,
      speechApi.generateParagraphVideo (fun _ => "1700000000000") 1700000000000
          [("image_paths", .arr [.str "/static/a.png"])] []
        = [⟨.POST, "/speech/generate_paragraph_video", some (.obj body)⟩] ∧
      body.lookup "audio_paths" = some (.arr []) ∧
      body.lookup "output_filename" = some (.str "video_1700000000000") ∧
      body.lookup "transition_duration" = some (.num 1) ∧
      body.lookup "fade_duration" = some (.num (1 / 2)) := by
  obtain ⟨body, h, _, h2, _, h4, h5, h6⟩ :=
    (speechApi_fills_absent_fields (fun _ => "1700000000000") 1700000000000
      [("image_paths", .arr [.str "/static/a.png"])] []).2
  exact ⟨body, h, h2 rfl, h4 rfl, h5 rfl, h6 rfl⟩

/-- C7: every function of `storyApi`, `imageApi` and `speechApi` issues exactly one
request, with the documented method and path; `getStory`, `addParagraphsToDB` and
`addCharactersToDB` put the story id into the path, and the functions that take a
data argument and fill no defaults send it unchanged as the body. -/
theorem api_issues_one_request (toStr : JsValue → String) (now : Nat)
    (storyId data : JsValue) (input : Props) (sent : Http) :
    storyApi.generateStory data sent
      = sent ++ [⟨.POST, "/story/generate-story", some data⟩] ∧
    storyApi.generateImageDescriptions data sent
      = sent ++ [⟨.POST, "/story/generate-image-descriptions", some data⟩] ∧
    storyApi.getArtStyles sent = sent ++ [⟨.GET, "/story/art-styles", none⟩] ∧
    storyApi.getAgeRanges sent = sent ++ [⟨.GET, "/story/age-ranges", none⟩] ∧
    storyApi.createStoryInDB data sent = sent ++ [⟨.POST, "/stories", some data⟩] ∧
    storyApi.addParagraphsToDB toStr storyId data sent
      = sent ++ [⟨.POST, "/stories/" ++ toStr storyId ++ "/paragraphs", some data⟩] ∧
    storyApi.addCharactersToDB toStr storyId data sent
      = sent ++ [⟨.POST, "/stories/" ++ toStr storyId ++ "/characters", some data⟩] ∧
    storyApi.getStories sent = sent ++ [⟨.GET, "/stories", none⟩] ∧
    storyApi.getStory toStr storyId sent
      = sent ++ [⟨.GET, "/stories/" ++ toStr storyId, none⟩] ∧
    imageApi.generateImages data sent
      = sent ++ [⟨.POST, "/image/generate-images-from-prompts", some data⟩] ∧
    imageApi.getAspectRatios sent = sent ++ [⟨.GET, "/image/aspect-ratios", none⟩] ∧
    imageApi.getImageModels sent = sent ++ [⟨.GET, "/image/image-models", none⟩] ∧
    (∃ body, speechApi.generateParagraphAudio toStr now input sent
      = sent ++ [⟨.POST, "/speech/generate_paragraph_audio", some body⟩]) ∧
    (∃ body, speechApi.generateParagraphVideo toStr now input sent
      = sent ++ [⟨.POST, "/speech/generate_paragraph_video", some body⟩]) :=
  ⟨rfl, rfl, rfl, rfl, rfl, rfl, rfl, rfl, rfl, rfl, rfl, rfl, ⟨_, rfl⟩, ⟨_, rfl⟩⟩

/-- C10: each field of the body sent by `generateParagraphAudio` and
`generateParagraphVideo` is the input field when that is truthy and the default
otherwise, so a present but falsy field is replaced: `transition_duration: 0` is
sent as `1.0`, `fade_duration: 0` as `0.5`, `title: ''` as the generated title; the
body has the listed fields and no other. -/
theorem speechApi_body_fields (toStr : JsValue → String) (now : Nat) (data : Props)
    (sent : Http) :
    (∃ body : Props,
      speechApi.generateParagraphAudio toStr now data sent
        = sent ++ [⟨.POST, "/speech/generate_paragraph_audio", some (.obj body)⟩] ∧
      body.map Prod.fst = ["title", "paragraphs", "emotion"] ∧
      body.lookup "title" = some (if (getProp data "title").truthy then getProp data "title"
        else .str ("故事_" ++ toStr (.num now))) ∧
      body.lookup "paragraphs" = some (if (getProp data "paragraphs").truthy
        then getProp data "paragraphs" else .arr []) ∧
      body.lookup "emotion" = some (if (getProp data "emotion").truthy
        then getProp data "emotion" else .str "happy") ∧
      (getProp data "title" = .str "" →
        body.lookup "title" = some (.str ("故事_" ++ toStr (.num now))))) ∧
    (∃ body : Props,
      speechApi.generateParagraphVideo toStr now data sent
        = sent ++ [⟨.POST, "/speech/generate_paragraph_video", some (.obj body)⟩] ∧
      body.map Prod.fst = ["image_paths", "audio_paths", "subtitle_paths", "output_filename",
        "transition_duration", "fade_duration"] ∧
      body.lookup "image_paths" = some (if (getProp data "image_paths").truthy
        then getProp data "image_paths" else .arr []) ∧
      body.lookup "audio_paths" = some (if (getProp data "audio_paths").truthy
        then getProp data "audio_paths" else .arr []) ∧
      body.lookup "subtitle_paths" = some (if (getProp data "subtitle_paths").truthy
        then getProp data "subtitle_paths" else .arr []) ∧
      body.lookup "output_filename" = some (if (getProp data "output_filename").truthy
        then getProp data "output_filename" else .str ("video_" ++ toStr (.num now))) ∧
      body.lookup "transition_duration" = some (if (getProp data "transition_duration").truthy
        then getProp data "transition_duration" else .num 1) ∧
      body.lookup "fade_duration" = some (if (getProp data "fade_duration").truthy
        then getProp data "fade_duration" else .num (1 / 2)) ∧
      (getProp data "transition_duration" = .num 0 →
        body.lookup "transition_duration" = some (.num 1)) ∧
      (getProp data "fade_duration" = .num 0 →
        body.lookup "fade_duration" = some (.num (1 / 2)))) := by
  refine ⟨⟨_, rfl, rfl, rfl, rfl, rfl, ?_⟩, ⟨_, rfl, rfl, rfl, rfl, rfl, rfl, ?_, ?_, ?_, ?_⟩⟩
  · intro h
    simp [List.lookup, h, JsValue.or, JsValue.truthy, strTruthy]
  · simp [List.lookup, JsValue.or]
    split_ifs <;> norm_num
  · simp [List.lookup, JsValue.or]
    split_ifs <;> norm_num
  · intro h
    simp [List.lookup, h, JsValue.or, JsValue.truthy]
    norm_num
  · intro h
    simp [List.lookup, h, JsValue.or, JsValue.truthy]
    norm_num

theorem speechApi_body_fields_witness :
    ∃ body : Props,
      speechApi.generateParagraphVideo (fun _ => "1700000000000") 1700000000000
          [("transition_duration", .num 0), ("fade_duration", .num 0), ("extra", .bool true)] []
        = [⟨.POST, "/speech/generate_paragraph_video", some (.obj body)⟩] ∧
      body.lookup "transition_duration" = some (.num 1) ∧
      body.lookup "fade_duration" = some (.num (1 / 2)) ∧
      body.lookup "extra" = none := by
  obtain ⟨body, h, hk, _, _, _, _, _, _, h7, h8⟩ :=
    (speechApi_body_fields (fun _ => "1700000000000") 1700000000000
      [("transition_duration", .num 0), ("fade_duration", .num 0), ("extra", .bool true)] []).2
  refine ⟨body, h, h7 (by simp [getProp, List.lookup]), h8 (by simp [getProp, List.lookup]), ?_⟩
  rw [List.lookup_eq_none_iff]
  intro p hp
  have : p.1 ∈ body.map Prod.fst := List.mem_map_of_mem _ hp
  rw [hk] at this
  simp only [List.mem_cons, List.mem_singleton, List.not_mem_nil, or_false] at this
  rcases this with h1 | h1 | h1 | h1 | h1 | h1 <;> rw [h1] <;> decide

/-! ## `throttle` -/

theorem throttle_run_suppressed (delay : Int) :
    ∀ (ts : List Int) (last : Int) (j : Nat) (tj : Int), ts.Sorted (· ≤ ·) →
      ts[j]? = some tj → tj ≤ last + delay → (throttle.run delay last ts)[j]? = some false := by
  intro ts
  induction ts with
  | nil => intro last j tj _ h; simp at h
  | cons t rest ih =>
    intro last j tj hs hj hle
    rw [List.sorted_cons] at hs
    cases j with
    | zero =>
      simp only [List.getElem?_cons_zero, Option.some.injEq] at hj
      subst hj
      have : ¬ (t - last > delay) := by omega
      simp [throttle.run, throttle.call, this]
    | succ j =>
      simp only [List.getElem?_cons_succ] at hj
      have hmem : tj ∈ rest := List.getElem?_mem hj
      have htj : t ≤ tj := hs.1 tj hmem
      have : ¬ (t - last > delay) := by omega
      simp only [throttle.run, throttle.call, this, if_false, List.getElem?_cons_succ]
      exact ih last j tj hs.2 hj hle

theorem throttle_run_window (delay : Int) :
    ∀ (ts : List Int) (last : Int) (i j : Nat) (ti tj : Int), ts.Sorted (· ≤ ·) → i < j →
      ts[i]? = some ti → ts[j]? = some tj → (throttle.run delay last ts)[i]? = some true →
      tj ≤ ti + delay → (throttle.run delay last ts)[j]? = some false := by
  intro ts
  induction ts with
  | nil => intro last i j ti tj _ _ h; simp at h
  | cons t rest ih =>
    intro last i j ti tj hs hij hi hj hfi hle
    rw [List.sorted_cons] at hs
    obtain ⟨j, rfl⟩ : ∃ k, j = k + 1 := ⟨j - 1, by omega⟩
    simp only [List.getElem?_cons_succ] at hj
    cases i with
    | zero =>
      simp only [List.getElem?_cons_zero, Option.some.injEq] at hi
      subst hi
      by_cases hf : t - last > delay
      · simp only [throttle.run, throttle.call, hf, if_true, List.getElem?_cons_succ]
        exact throttle_run_suppressed delay rest t j tj hs.2 hj hle
      · simp [throttle.run, throttle.call, hf] at hfi
    | succ i =>
      simp only [List.getElem?_cons_succ] at hi
      simp only [throttle.run, List.getElem?_cons_succ] at hfi ⊢
      exact ih _ i j ti tj hs.2 (by omega) hi hj hfi hle

theorem throttle_run_tick (delay : Int) :
    ∀ (m : Nat) (ts : List Int) (last : Int), ts.Chain' (fun a b => b = a + 1) →
      ts[0]? = some (last + delay + 1 - m) → m < ts.length →
      (throttle.run delay last ts)[m]? = some true := by
  intro m
  induction m with
  | zero =>
    intro ts last _ h0 _
    cases ts with
    | nil => simp at h0
    | cons t rest =>
      simp only [List.getElem?_cons_zero, Option.some.injEq] at h0
      have : t - last > delay := by push_cast at h0; omega
      simp [throttle.run, throttle.call, this]
  | succ m ih =>
    intro ts last hc h0 hlen
    cases ts with
    | nil => simp at h0
    | cons t rest =>
      simp only [List.getElem?_cons_zero, Option.some.injEq] at h0
      have hnf : ¬ (t - last > delay) := by push_cast at h0; omega
      simp only [throttle.run, throttle.call, hnf, if_false, List.getElem?_cons_succ]
      cases rest with
      | nil => simp at hlen
      | cons u rest2 =>
        rw [List.chain'_cons] at hc
        refine ih (u :: rest2) last hc.2 ?_ (by simpa using hlen)
        simp only [List.getElem?_cons_zero, Option.some.injEq]
        rw [hc.1, h0]; push_cast; ring

theorem throttle_run_next (delay : Int) (hd : 0 ≤ delay) :
    ∀ (ts : List Int) (last : Int) (i : Nat), ts.Chain' (fun a b => b = a + 1) →
      (throttle.run delay last ts)[i]? = some true → i + delay.toNat + 1 < ts.length →
      (throttle.run delay last ts)[i + delay.toNat + 1]? = some true := by
  intro ts
  induction ts with
  | nil => intro last i _ h; simp [throttle.run] at h
  | cons t rest ih =>
    intro last i hc hfi hlen
    cases i with
    | zero =>
      by_cases hf : t - last > delay
      · simp only [throttle.run, throttle.call, hf, if_true, Nat.zero_add,
          List.getElem?_cons_succ]
        cases rest with
        | nil => simp at hlen
        | cons u rest2 =>
          rw [List.chain'_cons] at hc
          refine throttle_run_tick delay delay.toNat (u :: rest2) t hc.2 ?_ (by simpa using hlen)
          simp only [List.getElem?_cons_zero, Option.some.injEq]
          rw [hc.1, Int.toNat_of_nonneg hd]; ring
      · simp [throttle.run, throttle.call, hf] at hfi
    | succ i =>
      have hidx : i + 1 + delay.toNat + 1 = (i + delay.toNat + 1) + 1 := by omega
      rw [hidx]
      simp only [throttle.run, List.getElem?_cons_succ] at hfi ⊢
      exact ih _ i (List.Chain'.tail hc) hfi (by simp at hlen; omega)

/-- C5: for calls of a throttled function at non-decreasing clock times, a call made
within `delay` after a call that fired does not invoke `fn`, so two calls that fire
are more than `delay` apart; and when a call arrives at every tick of the clock, the
call that follows a firing by `delay + 1` fires, the first one outside the window:
exactly one call fires in each window of `delay` after a firing. -/
theorem throttle_spec (delay : Int) (times : List Int) (hmono : times.Sorted (· ≤ ·)) :
    (∀ (i j : Nat) (ti tj : Int), i < j → times[i]? = some ti → times[j]? = some tj →
      (throttle delay times)[i]? = some true → tj ≤ ti + delay →
      (throttle delay times)[j]? = some false) ∧
    (∀ (i j : Nat) (ti tj : Int), i < j → times[i]? = some ti → times[j]? = some tj →
      (throttle delay times)[i]? = some true → (throttle delay times)[j]? = some true →
      delay < tj - ti) ∧
    (0 ≤ delay → times.Chain' (fun a b => b = a + 1) →
      ∀ i : Nat, (throttle delay times)[i]? = some true → i + delay.toNat + 1 < times.length →
        (∀ k : Nat, i < k → k < i + delay.toNat + 1 → (throttle delay times)[k]? = some false) ∧
        (throttle delay times)[i + delay.toNat + 1]? = some true) := by
  have h1 : ∀ (i j : Nat) (ti tj : Int), i < j → times[i]? = some ti → times[j]? = some tj →
      (throttle delay times)[i]? = some true → tj ≤ ti + delay →
      (throttle delay times)[j]? = some false :=
    fun i j ti tj hij hi hj hf hle =>
      throttle_run_window delay times 0 i j ti tj hmono hij hi hj hf hle
  refine ⟨h1, ?_, ?_⟩
  · intro i j ti tj hij hi hj hfi hfj
    by_contra hcon
    have := h1 i j ti tj hij hi hj hfi (by omega)
    rw [this] at hfj
    simp at hfj
  · intro hd hc i hfi hlen
    refine ⟨?_, throttle_run_next delay hd times 0 i hc hfi hlen⟩
    intro k hik hk
    have hi : i < times.length := by omega
    have hk' : k < times.length := by omega
    have hstep : ∀ (n : Nat) (h : i + n < times.length),
        times[i + n] = times[i] + n := by
      intro n
      induction n with
      | zero => intro _; simp
      | succ n ihn =>
        intro h
        have h2 := (List.chain'_iff_get.1 hc) (i + n) (by omega)
        simp only [List.get_eq_getElem] at h2
        have : times[i + (n + 1)] = times[i + n + 1] := rfl
        rw [this, h2, ihn (by omega)]; push_cast; ring
    have hkk := hstep (k - i) (by omega)
    have hki : i + (k - i) = k := by omega
    simp only [hki] at hkk
    refine h1 i k times[i] times[k] hik (List.getElem?_eq_getElem hi)
      (List.getElem?_eq_getElem hk') hfi ?_
    rw [hkk]
    have : ((k - i : Nat) : Int) ≤ delay := by
      have := Int.toNat_of_nonneg hd
      omega
    omega

theorem throttle_spec_witness :
    (throttle 2 [100, 101, 102, 103, 104])[1]? = some false ∧
    (throttle 2 [100, 101, 102, 103, 104])[3]? = some true := by
  have h := throttle_spec 2 [100, 101, 102, 103, 104] (by decide)
  exact ⟨h.1 0 1 100 101 (by decide) (by decide) (by decide) (by decide) (by decide),
    (h.2.2 (by decide) (by simp) 0 (by decide) (by decide)).2⟩

/-! ## `debounce` -/

theorem debounce_run_armed {α : Type} (delay : Nat) :
    ∀ (calls : List (Nat × α)) (id t0 : Nat) (a0 : α) (f : List (Timer α)) (cl : List Nat),
      calls.Chain (fun c d => c.1 ≤ d.1 ∧ d.1 < c.1 + delay) (t0, a0) →
      debounce.run delay ⟨id + 1, [⟨id, t0 + delay, a0⟩], some id, f, cl⟩ calls =
        ⟨id + calls.length + 1,
          [⟨id + calls.length, (((t0, a0) :: calls).getLast (List.cons_ne_nil _ _)).1 + delay,
            (((t0, a0) :: calls).getLast (List.cons_ne_nil _ _)).2⟩],
          some (id + calls.length), f, cl ++ List.range' id calls.length⟩ := by
  intro calls
  induction calls with
  | nil => intro id t0 a0 f cl _; simp [debounce.run]
  | cons c rest ih =>
    intro id t0 a0 f cl hch
    rw [List.chain_cons] at hch
    obtain ⟨⟨_, hlt⟩, hrest⟩ := hch
    obtain ⟨t, a⟩ := c
    have hnd : ¬ (t0 + delay ≤ t) := by simpa using hlt
    have hstep : debounce.call delay t a
        (runDue t ⟨id + 1, [⟨id, t0 + delay, a0⟩], some id, f, cl⟩) =
        ⟨id + 1 + 1, [⟨id + 1, t + delay, a⟩], some (id + 1), f, cl ++ [id]⟩ := by
      simp [debounce.call, runDue, clearTimeout, setTimeout, hnd]
    rw [debounce.run, hstep, ih (id + 1) t a f (cl ++ [id]) hrest]
    simp only [List.length_cons, List.getLast_cons (List.cons_ne_nil _ _), List.append_assoc,
      List.singleton_append, List.range'_succ, DebounceState.mk.injEq, List.cons.injEq,
      Timer.mk.injEq, Option.some.injEq, and_true, true_and]
    omega

/-- C4: when every call of a debounced function follows the previous one by less
than `delay`, `fn` is invoked exactly once, at the time of the last call plus
`delay` and with the arguments of the last call; the timers of all earlier calls are
cleared and none of them fires. -/
theorem debounce_spec {α : Type} (delay : Nat) (calls : List (Nat × α)) (hne : calls ≠ [])
    (hgap : calls.Chain' (fun c d => c.1 ≤ d.1 ∧ d.1 < c.1 + delay)) :
    (debounce delay calls).fired =
      [⟨calls.length - 1, (calls.getLast hne).1 + delay, (calls.getLast hne).2⟩] ∧
    (debounce delay calls).cleared = List.range (calls.length - 1) ∧
    (debounce delay calls).pending = [] := by
  cases calls with
  | nil => exact absurd rfl hne
  | cons c rest =>
    obtain ⟨t, a⟩ := c
    have hfirst : debounce.call delay t a (runDue t (DebounceState.init : DebounceState α)) =
        ⟨0 + 1, [⟨0, t + delay, a⟩], some 0, [], []⟩ := by
      simp [debounce.call, runDue, clearTimeout, setTimeout, DebounceState.init]
    have hrun := debounce_run_armed delay rest 0 t a [] [] hgap
    simp only [debounce, debounce.run, hfirst, hrun, runAll, List.nil_append, Nat.zero_add,
      List.length_cons, Nat.add_sub_cancel, List.range_eq_range', and_self, and_true]

theorem debounce_spec_witness :
    (debounce 300 [(1000, "a"), (1100, "ab"), (1399, "abc")]).fired = [⟨2, 1699, "abc"⟩] ∧
    (debounce 300 [(1000, "a"), (1100, "ab"), (1399, "abc")]).cleared = [0, 1] :=
  ⟨(debounce_spec 300 [(1000, "a"), (1100, "ab"), (1399, "abc")] (by decide) (by simp)).1,
   (debounce_spec 300 [(1000, "a"), (1100, "ab"), (1399, "abc")] (by decide) (by simp)).2.1⟩

/-! ## `generateUUID` -/

theorem randomNibble_lt {u : ℚ} (h0 : 0 ≤ u) (h1 : u < 1) : randomNibble u < 16 := by
  unfold randomNibble
  have hf : ⌊u * 16⌋ < 16 := by
    rw [Int.floor_lt]
    push_cast
    linarith
  have hn : 0 ≤ ⌊u * 16⌋ := Int.floor_nonneg.2 (by positivity)
  omega

theorem toDigits_hex_of_lt (v : Nat) (h : v < 16) : Nat.toDigits 16 v = [Nat.digitChar v] := by
  interval_cases v <;> rfl

theorem isLowerHex_digitChar (v : Nat) (h : v < 16) : isLowerHex (Nat.digitChar v) = true := by
  interval_cases v <;> rfl

theorem uuidReplacer_x (u : ℚ) : uuidReplacer 'x' u = Nat.toDigits 16 (randomNibble u) := by
  simp [uuidReplacer]

theorem uuidReplacer_y (u : ℚ) :
    uuidReplacer 'y' u = Nat.toDigits 16 (randomNibble u &&& 0x3 ||| 0x8) := by
  simp [uuidReplacer]

theorem variant_digit (r : Nat) (h : r < 16) :
    Nat.toDigits 16 (r &&& 0x3 ||| 0x8) = [Nat.digitChar (r &&& 0x3 ||| 0x8)] ∧
    (Nat.digitChar (r &&& 0x3 ||| 0x8) = '8' ∨ Nat.digitChar (r &&& 0x3 ||| 0x8) = '9' ∨
      Nat.digitChar (r &&& 0x3 ||| 0x8) = 'a' ∨ Nat.digitChar (r &&& 0x3 ||| 0x8) = 'b') := by
  interval_cases r <;> decide

theorem generateUUID_unfold (rand : Nat → ℚ) :
    generateUUID rand =
      (uuidReplacer 'x' (rand 0) ++ (uuidReplacer 'x' (rand 1) ++ (uuidReplacer 'x' (rand 2) ++
      (uuidReplacer 'x' (rand 3) ++ (uuidReplacer 'x' (rand 4) ++ (uuidReplacer 'x' (rand 5) ++
      (uuidReplacer 'x' (rand 6) ++ (uuidReplacer 'x' (rand 7) ++ ('-' :: (uuidReplacer 'x'
      (rand 8) ++ (uuidReplacer 'x' (rand 9) ++ (uuidReplacer 'x' (rand 10) ++ (uuidReplacer 'x'
      (rand 11) ++ ('-' :: ('4' :: (uuidReplacer 'x' (rand 12) ++ (uuidReplacer 'x' (rand 13) ++
      (uuidReplacer 'x' (rand 14) ++ ('-' :: (uuidReplacer 'y' (rand 15) ++ (uuidReplacer 'x'
      (rand 16) ++ (uuidReplacer 'x' (rand 17) ++ (uuidReplacer 'x' (rand 18) ++ ('-' ::
      (uuidReplacer 'x' (rand 19) ++ (uuidReplacer 'x' (rand 20) ++ (uuidReplacer 'x' (rand 21)
      ++ (uuidReplacer 'x' (rand 22) ++ (uuidReplacer 'x' (rand 23) ++ (uuidReplacer 'x' (rand
      24) ++ (uuidReplacer 'x' (rand 25) ++ (uuidReplacer 'x' (rand 26) ++ (uuidReplacer 'x'
      (rand 27) ++ (uuidReplacer 'x' (rand 28) ++ (uuidReplacer 'x' (rand 29) ++ (uuidReplacer
      'x' (rand 30) ++ [])))))))))))))))))))))))))))))))))))) :=
  rfl

theorem generateUUID_digits (rand : Nat → ℚ) (hrand : ∀ k, 0 ≤ rand k ∧ rand k < 1) :
    generateUUID rand =
      [Nat.digitChar (randomNibble (rand 0)), Nat.digitChar (randomNibble (rand 1)),
      Nat.digitChar (randomNibble (rand 2)), Nat.digitChar (randomNibble (rand 3)),
      Nat.digitChar (randomNibble (rand 4)), Nat.digitChar (randomNibble (rand 5)),
      Nat.digitChar (randomNibble (rand 6)), Nat.digitChar (randomNibble (rand 7)), '-',
      Nat.digitChar (randomNibble (rand 8)), Nat.digitChar (randomNibble (rand 9)),
      Nat.digitChar (randomNibble (rand 10)), Nat.digitChar (randomNibble (rand 11)), '-', '4',
      Nat.digitChar (randomNibble (rand 12)), Nat.digitChar (randomNibble (rand 13)),
      Nat.digitChar (randomNibble (rand 14)), '-', Nat.digitChar (randomNibble (rand 15) &&& 0x3
      ||| 0x8), Nat.digitChar (randomNibble (rand 16)), Nat.digitChar (randomNibble (rand 17)),
      Nat.digitChar (randomNibble (rand 18)), '-', Nat.digitChar (randomNibble (rand 19)),
      Nat.digitChar (randomNibble (rand 20)), Nat.digitChar (randomNibble (rand 21)),
      Nat.digitChar (randomNibble (rand 22)), Nat.digitChar (randomNibble (rand 23)),
      Nat.digitChar (randomNibble (rand 24)), Nat.digitChar (randomNibble (rand 25)),
      Nat.digitChar (randomNibble (rand 26)), Nat.digitChar (randomNibble (rand 27)),
      Nat.digitChar (randomNibble (rand 28)), Nat.digitChar (randomNibble (rand 29)),
      Nat.digitChar (randomNibble (rand 30))] := by
  have hx : ∀ k, uuidReplacer 'x' (rand k) = [Nat.digitChar (randomNibble (rand k))] := by
    intro k
    rw [uuidReplacer_x, toDigits_hex_of_lt _ (randomNibble_lt (hrand k).1 (hrand k).2)]
  have hy : ∀ k, uuidReplacer 'y' (rand k) =
      [Nat.digitChar (randomNibble (rand k) &&& 0x3 ||| 0x8)] := by
    intro k
    rw [uuidReplacer_y, (variant_digit _ (randomNibble_lt (hrand k).1 (hrand k).2)).1]
  rw [generateUUID_unfold]
  simp only [hx, hy, List.singleton_append, List.cons_append, List.nil_append]

/-- C8: whatever values in `[0, 1)` the random source produces, `generateUUID`
returns 36 characters with `-` at indices 8, 13, 18 and 23, `4` at index 14, one of
`8`, `9`, `a`, `b` at index 19, and a lowercase hexadecimal digit everywhere else. -/
theorem generateUUID_spec (rand : Nat → ℚ) (hrand : ∀ k, 0 ≤ rand k ∧ rand k < 1) :
    (generateUUID rand).length = 36 ∧
    (generateUUID rand)[8]? = some '-' ∧
    (generateUUID rand)[13]? = some '-' ∧
    (generateUUID rand)[18]? = some '-' ∧
    (generateUUID rand)[23]? = some '-' ∧
    (generateUUID rand)[14]? = some '4' ∧
    ((generateUUID rand)[19]? = some '8' ∨ (generateUUID rand)[19]? = some '9' ∨
      (generateUUID rand)[19]? = some 'a' ∨ (generateUUID rand)[19]? = some 'b') ∧
    (∀ i : Nat, i < 36 → i ≠ 8 → i ≠ 13 → i ≠ 18 → i ≠ 23 → i ≠ 14 → i ≠ 19 →
      ∃ c, (generateUUID rand)[i]? = some c ∧ isLowerHex c = true) := by
  have hlt : ∀ k, randomNibble (rand k) < 16 := fun k =>
    randomNibble_lt (hrand k).1 (hrand k).2
  rw [generateUUID_digits rand hrand]
  refine ⟨rfl, rfl, rfl, rfl, rfl, rfl, ?_, ?_⟩
  · simpa using (variant_digit _ (hlt 15)).2
  · intro i hi h8 h13 h18 h23 h14 h19
    interval_cases i <;>
      first
      | exact absurd rfl h8
      | exact absurd rfl h13
      | exact absurd rfl h18
      | exact absurd rfl h23
      | exact absurd rfl h14
      | exact absurd rfl h19
      | exact ⟨_, rfl, isLowerHex_digitChar _ (hlt _)⟩

theorem generateUUID_spec_witness :
    (generateUUID (fun _ => 1 / 2)).length = 36 ∧
    (generateUUID (fun _ => 1 / 2))[14]? = some '4' ∧
    ∃ c, (generateUUID (fun _ => 1 / 2))[0]? = some c ∧ isLowerHex c = true :=
  have h := generateUUID_spec (fun _ => 1 / 2) (fun _ => by norm_num)
  ⟨h.1, h.2.2.2.2.2.1, h.2.2.2.2.2.2.2 0 (by decide) (by decide) (by decide) (by decide)
    (by decide) (by decide) (by decide)⟩

/-! ## Decimal strings -/

theorem toDigitsCore_eq_zeroPad :
    ∀ (w fuel n : Nat) (ds : List Char), w < fuel → n < 10 ^ (w + 1) → (w = 0 ∨ 10 ^ w ≤ n) →
      Nat.toDigitsCore 10 fuel n ds = zeroPad (w + 1) n ++ ds := by
  intro w
  induction w with
  | zero =>
    intro fuel n ds hf hn _
    obtain ⟨fuel, rfl⟩ : ∃ k, fuel = k + 1 := ⟨fuel - 1, by omega⟩
    have h0 : n / 10 = 0 := by omega
    simp [Nat.toDigitsCore, h0, zeroPad]
  | succ w ih =>
    intro fuel n ds hf hn hlow
    obtain ⟨fuel, rfl⟩ : ∃ k, fuel = k + 1 := ⟨fuel - 1, by omega⟩
    have hlow' : 10 ^ (w + 1) ≤ n := by
      rcases hlow with h | h
      · omega
      · exact h
    have hpos : 0 < 10 ^ w := Nat.pow_pos (by decide)
    have h10 : 10 ^ (w + 1) = 10 * 10 ^ w := by rw [pow_succ]; ring
    have h100 : 10 ^ (w + 1 + 1) = 10 * 10 ^ (w + 1) := by rw [pow_succ]; ring
    have hne : n / 10 ≠ 0 := by omega
    have hrec := ih fuel (n / 10) (Nat.digitChar (n % 10) :: ds) (by omega) (by omega)
      (Or.inr (by omega))
    rw [Nat.toDigitsCore]
    simp only [hne, if_false]
    rw [hrec]
    conv_rhs => rw [zeroPad]
    simp

theorem natToString_eq_zeroPad (w n : Nat) (hn : n < 10 ^ (w + 1)) (hlow : w = 0 ∨ 10 ^ w ≤ n) :
    natToString n = zeroPad (w + 1) n := by
  have hw : w < n + 1 := by
    rcases hlow with h | h
    · omega
    · have := Nat.lt_pow_self (show 1 < 10 by decide) w
      omega
  have := toDigitsCore_eq_zeroPad w (n + 1) n [] hw hn hlow
  simpa [natToString, Nat.toDigits] using this

/-! ## `formatDate` -/

theorem pad2_eq_zeroPad : ∀ v : Nat, v < 100 →
    substr ("00".data ++ natToString v) (natToString v).length = zeroPad 2 v := by
  decide

theorem zeroPad_plain : ∀ (w n : Nat), ∀ x ∈ zeroPad w n, x.toNat < 65 := by
  intro w
  induction w with
  | zero => intro n x hx; simp [zeroPad] at hx
  | succ w ih =>
    intro n x hx
    simp only [zeroPad, List.mem_append, List.mem_singleton] at hx
    rcases hx with hx | rfl
    · exact ih _ x hx
    · have h : n % 10 < 10 := Nat.mod_lt _ (by decide)
      generalize n % 10 = k at h
      interval_cases k <;> decide

theorem matchRun_skip (c : Char) (pre rest : List Char) (hpre : ∀ x ∈ pre, x ≠ c) :
    matchRun c (pre ++ rest) = matchRun c rest := by
  induction pre with
  | nil => rfl
  | cons x xs ih =>
    have hx : x ≠ c := hpre x (List.mem_cons_self _ _)
    simp only [List.cons_append, matchRun, hx, if_false]
    exact ih (fun y hy => hpre y (List.mem_cons_of_mem _ hy))

theorem matchChar_skip (c : Char) (s : List Char) (hs : ∀ x ∈ s, x ≠ c) :
    matchChar c s = none := by
  have : c ∉ s := fun h => hs c h rfl
  simp [matchChar, this]

theorem replaceFirst_skip (c : Char) (m repl pre rest : List Char) (hpre : ∀ x ∈ pre, x ≠ c) :
    replaceFirst (c :: m) repl (pre ++ rest) = pre ++ replaceFirst (c :: m) repl rest := by
  induction pre with
  | nil => rfl
  | cons x xs ih =>
    have hx : x ≠ c := hpre x (List.mem_cons_self _ _)
    have hx' : c ≠ x := fun h => hx h.symm
    have hb : (c == x) = false := by simpa using hx'
    simp only [List.cons_append, replaceFirst, List.isPrefixOf, hb, Bool.false_and,
      Bool.false_eq_true, if_false, List.cons.injEq, true_and]
    exact ih (fun y hy => hpre y (List.mem_cons_of_mem _ hy))

theorem applyDateKey_run (c : Char) (v : Nat) (pre rest m : List Char)
    (hpre : ∀ x ∈ pre, x.toNat < 65) (hc : 65 ≤ c.toNat)
    (hm : matchRun c rest = some (c :: m)) :
    applyDateKey (pre ++ rest) (.run c, v) =
      pre ++ replaceFirst (c :: m)
        (if (c :: m).length = 1 then natToString v
          else substr ("00".data ++ natToString v) (natToString v).length) rest := by
  have hne : ∀ x ∈ pre, x ≠ c := by
    intro x hx hxc
    have := hpre x hx
    rw [hxc] at this
    omega
  simp only [applyDateKey, DateKey.exec, matchRun_skip c pre rest hne, hm]
  exact replaceFirst_skip c m _ pre rest hne

theorem applyDateKey_absent (k : DateKey) (c : Char) (v : Nat) (s : List Char)
    (hk : k = .run c ∨ k = .one c) (hs : ∀ x ∈ s, x.toNat < 65) (hc : 65 ≤ c.toNat) :
    applyDateKey s (k, v) = s := by
  have hne : ∀ x ∈ s, x ≠ c := by
    intro x hx hxc
    have := hs x hx
    rw [hxc] at this
    omega
  rcases hk with rfl | rfl
  · have h := matchRun_skip c s [] hne
    rw [List.append_nil] at h
    simp [applyDateKey, DateKey.exec, h, matchRun]
  · simp [applyDateKey, DateKey.exec, matchChar_skip c s hne]

theorem applyDateKey_pair (c : Char) (v : Nat) (pre post : List Char) (hv : v < 100)
    (hpre : ∀ x ∈ pre, x.toNat < 65) (hc : 65 ≤ c.toNat)
    (hpost : ∀ x, post.head? = some x → x ≠ c) :
    applyDateKey (pre ++ c :: c :: post) (.run c, v) = pre ++ (zeroPad 2 v ++ post) := by
  have htw : (c :: post).takeWhile (fun y => decide (y = c)) = [c] := by
    cases post with
    | nil => simp [List.takeWhile]
    | cons p ps =>
      have : p ≠ c := hpost p rfl
      simp [List.takeWhile, this]
  have hm : matchRun c (c :: c :: post) = some (c :: [c]) := by
    simp only [matchRun, if_true, htw]
  rw [applyDateKey_run c v pre (c :: c :: post) [c] hpre hc hm]
  have hp : substr ('0' :: '0' :: natToString v) (natToString v).length = zeroPad 2 v :=
    pad2_eq_zeroPad v hv
  simp [replaceFirst, List.isPrefixOf, hp]

theorem applyYear_default (d : JsDate) :
    applyYear d defaultDateFormat =
      intToString d.fullYear ++
        ['-', 'M', 'M', '-', 'D', 'D', ' ', 'H', 'H', ':', 'm', 'm', ':', 's', 's'] := by
  have hm : matchRun 'Y' defaultDateFormat = some ['Y', 'Y', 'Y', 'Y'] := by decide
  have hr : ∀ r : List Char, replaceFirst ['Y', 'Y', 'Y', 'Y'] r defaultDateFormat =
      r ++ ['-', 'M', 'M', '-', 'D', 'D', ' ', 'H', 'H', ':', 'm', 'm', ':', 's', 's'] :=
    fun _ => rfl
  simp [applyYear, hm, hr, substr]

theorem formatDate_default_fields (d : JsDate) (hy : 1000 ≤ d.fullYear)
    (hy' : d.fullYear ≤ 9999) (hmo : d.month ≤ 11) (hda : d.date ≤ 31) (hh : d.hours ≤ 23)
    (hmi : d.minutes ≤ 59) (hs : d.seconds ≤ 59) :
    (dateTable d).foldl applyDateKey (applyYear d defaultDateFormat) = expectedDefaultDate d := by
  obtain ⟨y, hyy⟩ : ∃ y : Nat, d.fullYear = (y : Int) := ⟨d.fullYear.toNat, by omega⟩
  have hyr : intToString d.fullYear = zeroPad 4 y := by
    rw [hyy]
    exact natToString_eq_zeroPad 3 y (by norm_num; omega) (Or.inr (by norm_num; omega))
  have hplain2 : ∀ (pre : List Char) (s : Char) (v : Nat), (∀ x ∈ pre, x.toNat < 65) →
      s.toNat < 65 → ∀ x ∈ pre ++ (zeroPad 2 v ++ [s]), x.toNat < 65 := by
    intro pre s v hp hs x hx
    simp only [List.mem_append, List.mem_singleton] at hx
    rcases hx with hx | hx | rfl
    · exact hp x hx
    · exact zeroPad_plain 2 v x hx
    · exact hs
  have hp0 : ∀ x ∈ zeroPad 4 y ++ ['-'], x.toNat < 65 := by
    intro x hx
    simp only [List.mem_append, List.mem_singleton] at hx
    rcases hx with hx | rfl
    · exact zeroPad_plain 4 y x hx
    · decide
  have hp1 := hplain2 _ '-' (d.month + 1) hp0 (by decide)
  have hp2 := hplain2 _ ' ' d.date hp1 (by decide)
  have hp3 := hplain2 _ ':' d.hours hp2 (by decide)
  have hp4 := hplain2 _ ':' d.minutes hp3 (by decide)
  have hp5 : ∀ x ∈ zeroPad 4 y ++ ['-'] ++ (zeroPad 2 (d.month + 1) ++ ['-']) ++
      (zeroPad 2 d.date ++ [' ']) ++ (zeroPad 2 d.hours ++ [':']) ++
      (zeroPad 2 d.minutes ++ [':']) ++ (zeroPad 2 d.seconds ++ []), x.toNat < 65 := by
    intro x hx
    rw [List.mem_append] at hx
    rcases hx with hx | hx
    · exact hp4 x hx
    · rw [List.append_nil] at hx
      exact zeroPad_plain 2 _ x hx
  have s1 := applyDateKey_pair 'M' (d.month + 1) _
    ['-', 'D', 'D', ' ', 'H', 'H', ':', 'm', 'm', ':', 's', 's'] (by omega) hp0 (by decide)
    (by decide)
  have s2 := applyDateKey_pair 'D' d.date _ [' ', 'H', 'H', ':', 'm', 'm', ':', 's', 's']
    (by omega) hp1 (by decide) (by decide)
  have s3 := applyDateKey_pair 'H' d.hours _ [':', 'm', 'm', ':', 's', 's'] (by omega) hp2
    (by decide) (by decide)
  have s4 := applyDateKey_pair 'm' d.minutes _ [':', 's', 's'] (by omega) hp3 (by decide)
    (by decide)
  have s5 := applyDateKey_pair 's' d.seconds _ [] (by omega) hp4 (by decide) (by decide)
  have s6 := applyDateKey_absent (.run 'q') 'q' ((d.month + 3) / 3) _ (Or.inl rfl) hp5
    (by decide)
  have s7 := applyDateKey_absent (.one 'S') 'S' d.milliseconds _ (Or.inr rfl) hp5 (by decide)
  simp only [List.append_assoc, List.singleton_append, List.cons_append, List.nil_append,
    List.append_nil] at s1 s2 s3 s4 s5 s6 s7
  simp only [dateTable, List.foldl, applyYear_default, hyr, s1, s2, s3, s4, s5, s6, s7,
    expectedDefaultDate]
  have : d.fullYear.toNat = y := by omega
  simp [this]

/-- C9: for a date whose year has four digits, `formatDate` with the default format
returns the 19 characters `YYYY-MM-DD HH:mm:ss` made of the year and of the month
(1 to 12), day, hours, minutes and seconds, each zero-padded to two digits; and it
returns the empty string for `null`, `undefined`, `''` and `0`. -/
theorem formatDate_spec (parseDate : List Char → JsDate) (ofEpoch : Int → JsDate) (d : JsDate)
    (hy : 1000 ≤ d.fullYear) (hy' : d.fullYear ≤ 9999) (hmo : d.month ≤ 11) (hda : d.date ≤ 31)
    (hh : d.hours ≤ 23) (hmi : d.minutes ≤ 59) (hs : d.seconds ≤ 59) :
    formatDate parseDate ofEpoch (.date d) defaultDateFormat = expectedDefaultDate d ∧
    (formatDate parseDate ofEpoch (.date d) defaultDateFormat).length = 19 ∧
    (∀ fmt, formatDate parseDate ofEpoch .null fmt = []) ∧
    (∀ fmt, formatDate parseDate ofEpoch .undefined fmt = []) ∧
    (∀ fmt, formatDate parseDate ofEpoch (.str []) fmt = []) ∧
    (∀ fmt, formatDate parseDate ofEpoch (.num 0) fmt = []) := by
  have h : formatDate parseDate ofEpoch (.date d) defaultDateFormat = expectedDefaultDate d := by
    simp only [formatDate, DateArg.falsy, Bool.false_eq_true, if_false]
    exact formatDate_default_fields d hy hy' hmo hda hh hmi hs
  have hlen : ∀ w n, (zeroPad w n).length = w := by
    intro w
    induction w with
    | zero => intro n; rfl
    | succ w ih => intro n; simp [zeroPad, ih]
  refine ⟨h, ?_, fun _ => rfl, fun _ => rfl, fun _ => rfl, fun _ => rfl⟩
  rw [h]
  simp [expectedDefaultDate, hlen]

theorem formatDate_spec_witness :
    formatDate (fun _ => ⟨1970, 0, 1, 0, 0, 0, 0⟩) (fun _ => ⟨1970, 0, 1, 0, 0, 0, 0⟩)
        (.date ⟨2024, 2, 5, 14, 7, 9, 123⟩) defaultDateFormat = "2024-03-05 14:07:09".data :=
  (formatDate_spec (fun _ => ⟨1970, 0, 1, 0, 0, 0, 0⟩) (fun _ => ⟨1970, 0, 1, 0, 0, 0, 0⟩)
    ⟨2024, 2, 5, 14, 7, 9, 123⟩ (by decide) (by decide) (by decide) (by decide) (by decide)
    (by decide) (by decide)).1

end AiPictureBook
